import Mathlib

/-!
Verification of the ClassroomCogni repository against its specification.

The repository consists of a Next.js frontend, a Supabase SQL schema, and an
AI-processing pipeline.  Frontend functions and the SQL schema are embedded
shallowly below from their sources; where a claim concerns pipeline code whose
implementation file is not present in the repository snapshot (only its
launchers and documentation are), the relevant component is modelled from the
specification, and each such definition is marked `Modelled from the spec:`.

Machine conventions: JavaScript's `Math.random()` and PostgreSQL's `random()`
both draw from `[0, 1)`; such a draw is embedded as a rational number `r` with
`0 ≤ r < 1`.  Database rows are records, tables are lists of rows, and each
table's constraints (CHECK / PRIMARY KEY / UNIQUE) are explicit predicates.
-/

namespace ClassroomCogni

/-! ## Join-code generation (frontend `generateJoinCode`, SQL `generate_join_code`) -/

/-- Alphabet `'ABCDEFGHJKLMNPQRSTUVWXYZ23456789'` shared by the frontend
`generateJoinCode` (dashboard page) and the SQL function `generate_join_code`. -/
def joinCodeChars : List Char := "ABCDEFGHJKLMNPQRSTUVWXYZ23456789".toList

/-- Frontend `generateJoinCode` (dashboard page): six iterations of
`code += chars[Math.floor(Math.random() * chars.length)]`, the six random
draws being `rs 0, …, rs 5`.  Out-of-range indexing is modelled by `getD`. -/
def generateJoinCode (rs : Fin 6 → ℚ) : List Char :=
  (List.finRange 6).map fun i =>
    joinCodeChars.getD (Int.toNat ⌊rs i * (joinCodeChars.length : ℚ)⌋) 'A'

/-- SQL `generate_join_code`: six iterations of
`result := result || substr(chars, floor(random() * length(chars) + 1)::integer, 1)`.
`substr(s, i, 1)` with a one-based index `i` is `(s.drop (i-1)).take 1`. -/
def generate_join_code (rs : Fin 6 → ℚ) : List Char :=
  (List.finRange 6).foldl
    (fun acc i =>
      acc ++ (joinCodeChars.drop
        (Int.toNat ⌊rs i * (joinCodeChars.length : ℚ) + 1⌋ - 1)).take 1)
    []

lemma joinCodeChars_length : joinCodeChars.length = 32 := by decide

lemma joinIdx_lt (r : ℚ) (h0 : 0 ≤ r) (h1 : r < 1) :
    Int.toNat ⌊r * (joinCodeChars.length : ℚ)⌋ < joinCodeChars.length := by
  have hpos : (0 : ℚ) < (joinCodeChars.length : ℚ) := by
    rw [joinCodeChars_length]; norm_num
  have hmul : r * (joinCodeChars.length : ℚ) < ((joinCodeChars.length : ℤ) : ℚ) := by
    push_cast
    calc r * (joinCodeChars.length : ℚ) < 1 * (joinCodeChars.length : ℚ) :=
          mul_lt_mul_of_pos_right h1 hpos
      _ = _ := one_mul _
  have hlt : ⌊r * (joinCodeChars.length : ℚ)⌋ < (joinCodeChars.length : ℤ) :=
    Int.floor_lt.mpr hmul
  have hge : 0 ≤ ⌊r * (joinCodeChars.length : ℚ)⌋ :=
    Int.floor_nonneg.mpr (by positivity)
  omega

lemma join_map_singleton (f : Fin 6 → Char) (l : List (Fin 6)) :
    (l.map fun i => [f i]).join = l.map f := by
  induction l with
  | nil => rfl
  | cons x xs ih => simp [ih]

lemma getD_mem_of_lt (l : List Char) (n : ℕ) (d : Char) (h : n < l.length) :
    l.getD n d ∈ l := by
  rw [List.getD_eq_getElem l d h]
  exact List.getElem_mem h

lemma foldl_append_eq (g : Fin 6 → List Char) :
    ∀ (l : List (Fin 6)) (acc : List Char),
      l.foldl (fun a i => a ++ g i) acc = acc ++ (l.map g).join := by
  intro l
  induction l with
  | nil => intro acc; simp
  | cons x xs ih =>
      intro acc
      simp only [List.foldl_cons, List.map_cons, List.join_cons, ih,
        List.append_assoc]

lemma sql_char_eq (r : ℚ) (h0 : 0 ≤ r) (h1 : r < 1) :
    (joinCodeChars.drop
        (Int.toNat ⌊r * (joinCodeChars.length : ℚ) + 1⌋ - 1)).take 1 =
      [joinCodeChars.getD (Int.toNat ⌊r * (joinCodeChars.length : ℚ)⌋) 'A'] := by
  have hfl : ⌊r * (joinCodeChars.length : ℚ) + 1⌋ =
      ⌊r * (joinCodeChars.length : ℚ)⌋ + 1 := by
    exact_mod_cast Int.floor_add_int (r * (joinCodeChars.length : ℚ)) 1
  have hge : 0 ≤ ⌊r * (joinCodeChars.length : ℚ)⌋ := by
    apply Int.floor_nonneg.mpr
    positivity
  have hidx : Int.toNat ⌊r * (joinCodeChars.length : ℚ) + 1⌋ - 1 =
      Int.toNat ⌊r * (joinCodeChars.length : ℚ)⌋ := by
    rw [hfl]; omega
  rw [hidx]
  have hlt := joinIdx_lt r h0 h1
  rw [List.drop_eq_getElem_cons hlt, List.take_cons_succ, List.take_zero,
    List.getD_eq_getElem joinCodeChars 'A' hlt]

/-- C9: for every outcome of the random number generator, both the frontend
`generateJoinCode` and the SQL function `generate_join_code` return a string of
exactly 6 characters, each drawn from the 32-character alphabet
`ABCDEFGHJKLMNPQRSTUVWXYZ23456789`, which contains no `0`, `O`, `1` or `I`. -/
theorem join_codes_well_formed (rs : Fin 6 → ℚ)
    (h : ∀ i, 0 ≤ rs i ∧ rs i < 1) :
    (generateJoinCode rs).length = 6 ∧
    (∀ c ∈ generateJoinCode rs, c ∈ joinCodeChars) ∧
    (generate_join_code rs).length = 6 ∧
    (∀ c ∈ generate_join_code rs, c ∈ joinCodeChars) ∧
    joinCodeChars.length = 32 ∧
    '0' ∉ joinCodeChars ∧ 'O' ∉ joinCodeChars ∧
    '1' ∉ joinCodeChars ∧ 'I' ∉ joinCodeChars := by
  have hsql : generate_join_code rs =
      (List.finRange 6).map fun i =>
        joinCodeChars.getD (Int.toNat ⌊rs i * (joinCodeChars.length : ℚ)⌋) 'A' := by
    unfold generate_join_code
    rw [foldl_append_eq (fun i =>
      (joinCodeChars.drop
        (Int.toNat ⌊rs i * (joinCodeChars.length : ℚ) + 1⌋ - 1)).take 1)]
    rw [List.nil_append]
    have hmap : (List.finRange 6).map (fun i =>
        (joinCodeChars.drop
          (Int.toNat ⌊rs i * (joinCodeChars.length : ℚ) + 1⌋ - 1)).take 1) =
        (List.finRange 6).map (fun i =>
          [joinCodeChars.getD (Int.toNat ⌊rs i * (joinCodeChars.length : ℚ)⌋) 'A']) := by
      apply List.map_congr_left
      intro i _
      exact sql_char_eq (rs i) (h i).1 (h i).2
    rw [hmap, join_map_singleton]
  refine ⟨?_, ?_, ?_, ?_, by decide, by decide, by decide, by decide, by decide⟩
  · simp [generateJoinCode]
  · intro c hc
    simp only [generateJoinCode, List.mem_map] at hc
    obtain ⟨i, _, rfl⟩ := hc
    exact getD_mem_of_lt _ _ _ (joinIdx_lt (rs i) (h i).1 (h i).2)
  · rw [hsql]; simp
  · intro c hc
    rw [hsql] at hc
    simp only [List.mem_map] at hc
    obtain ⟨i, _, rfl⟩ := hc
    exact getD_mem_of_lt _ _ _ (joinIdx_lt (rs i) (h i).1 (h i).2)

/-- Witness for `join_codes_well_formed` at the constant draw `1/2`. -/
theorem join_codes_well_formed_witness :
    (generateJoinCode fun _ => (1 : ℚ) / 2).length = 6 ∧
    (∀ c ∈ generateJoinCode fun _ => (1 : ℚ) / 2, c ∈ joinCodeChars) ∧
    (generate_join_code fun _ => (1 : ℚ) / 2).length = 6 ∧
    (∀ c ∈ generate_join_code fun _ => (1 : ℚ) / 2, c ∈ joinCodeChars) ∧
    joinCodeChars.length = 32 ∧
    '0' ∉ joinCodeChars ∧ 'O' ∉ joinCodeChars ∧
    '1' ∉ joinCodeChars ∧ 'I' ∉ joinCodeChars :=
  join_codes_well_formed (fun _ => (1 : ℚ) / 2) (fun _ => by norm_num)

/-! ## Chat channels (classroom page `sendMessage` and the `messages` CHECK) -/

/-- Frontend type `Channel = 'general' | 'study-guide' | 'insights'`
(classroom page). -/
inductive ChatChannel
  | general
  | studyGuide
  | insights
  deriving DecidableEq

/-- CHECK constraint of `messages.channel`:
`CHECK (channel IN ('general', 'study-guide'))`. -/
def messagesChannelCheck (s : String) : Prop :=
  s = "general" ∨ s = "study-guide"

instance (s : String) : Decidable (messagesChannelCheck s) := by
  unfold messagesChannelCheck
  infer_instance

/-- Channel value inserted by `sendMessage`:
`const messageChannel = activeChannel === 'general' ? 'general' : 'study-guide'`. -/
def messageChannel (activeChannel : ChatChannel) : String :=
  if activeChannel = ChatChannel.general then "general" else "study-guide"

/-- C10: every chat message inserted by the classroom page's `sendMessage` has
its channel equal to `'general'` or `'study-guide'`; any active channel other
than `'general'` (including the insights tab) is written as `'study-guide'`,
so every inserted row satisfies the `messages.channel` CHECK constraint. -/
theorem sendMessage_channel_valid (c : ChatChannel) :
    messagesChannelCheck (messageChannel c) ∧
    (c ≠ ChatChannel.general → messageChannel c = "study-guide") := by
  cases c <;> simp [messageChannel, messagesChannelCheck]

/-- Witness for `sendMessage_channel_valid` at the insights tab. -/
theorem sendMessage_channel_valid_witness :
    messagesChannelCheck (messageChannel ChatChannel.insights) ∧
    messageChannel ChatChannel.insights = "study-guide" :=
  ⟨(sendMessage_channel_valid ChatChannel.insights).1,
   (sendMessage_channel_valid ChatChannel.insights).2 (by decide)⟩

/-! ## The `ai_insights` table and the classroom page's study-guide rendering -/

/-- Row of `ai_insights` (schema): `id` (PK), `classroom_id`, `insight_type`,
`unit_name` (nullable), `content`, `metadata` (JSONB, abstracted to a string),
`created_at`.  UUIDs and timestamps are abstracted to naturals. -/
structure AIInsightRow where
  id : ℕ
  classroom_id : ℕ
  insight_type : String
  unit_name : Option String
  content : String
  metadata : String
  created_at : ℕ
  deriving DecidableEq

/-- CHECK constraint of `ai_insights.insight_type`:
`CHECK (insight_type IN ('study_guide', 'confusion_summary', 'unit_cluster'))`. -/
def aiInsightTypeCheck (r : AIInsightRow) : Prop :=
  r.insight_type = "study_guide" ∨ r.insight_type = "confusion_summary" ∨
    r.insight_type = "unit_cluster"

instance (r : AIInsightRow) : Decidable (aiInsightTypeCheck r) := by
  unfold aiInsightTypeCheck
  infer_instance

/-- Every constraint the `ai_insights` DDL places on a table state: the primary
key is unique and each row passes the `insight_type` CHECK.  The schema has no
uniqueness constraint on `(classroom_id, insight_type)`. -/
def aiInsightsTableValid (rows : List AIInsightRow) : Prop :=
  rows.Pairwise (fun a b => a.id ≠ b.id) ∧ ∀ r ∈ rows, aiInsightTypeCheck r

/-- Property asserted by the claim: at most one insight row per
`(classroom_id, insight_type)` pair. -/
def atMostOnePerType (rows : List AIInsightRow) : Prop :=
  ∀ r1 ∈ rows, ∀ r2 ∈ rows,
    r1.classroom_id = r2.classroom_id → r1.insight_type = r2.insight_type → r1 = r2

/-- Classroom page, line `const studyGuides = insights.filter((i) =>
i.insight_type === 'study_guide')`: the rows rendered in the study-guide tab. -/
def studyGuides (insights : List AIInsightRow) : List AIInsightRow :=
  insights.filter fun i => i.insight_type == "study_guide"

/-- Two study-guide rows for classroom `0`, one per unit, with distinct ids. -/
def c6row1 : AIInsightRow :=
  ⟨0, 0, "study_guide", some "Unit 1: Cell Biology", "Section one", "", 0⟩

/-- Second study-guide row for classroom `0` (a different unit). -/
def c6row2 : AIInsightRow :=
  ⟨1, 0, "study_guide", some "Unit 2: Mechanics", "Section two", "", 1⟩

/-- C6 counterexample: a table state with two distinct `study_guide` rows for
the same classroom satisfies every constraint of the `ai_insights` schema, so
the store does not contain at most one insight row per
`(classroom_id, insight_type)` pair. -/
theorem ai_insights_duplicate_pair_allowed :
    aiInsightsTableValid [c6row1, c6row2] ∧ ¬ atMostOnePerType [c6row1, c6row2] := by
  constructor
  · constructor
    · decide
    · decide
  · intro hmono
    have h := hmono c6row1 (by simp) c6row2 (by simp) rfl rfl
    exact absurd h (by decide)

/-- C6 amended: the `ai_insights` schema permits several insight rows per
`(classroom_id, insight_type)` — its only constraints are the primary key and
the `insight_type` CHECK — and the classroom page renders every `study_guide`
row of the classroom (one per unit, labelled by `unit_name`) rather than a
single overwritten row. -/
theorem ai_insights_rows_per_unit :
    (∀ rows r, r ∈ studyGuides rows ↔ r ∈ rows ∧ r.insight_type = "study_guide") ∧
    aiInsightsTableValid [c6row1, c6row2] ∧
    c6row1 ∈ studyGuides [c6row1, c6row2] ∧
    c6row2 ∈ studyGuides [c6row1, c6row2] ∧
    c6row1 ≠ c6row2 ∧
    c6row1.classroom_id = c6row2.classroom_id ∧
    c6row1.insight_type = c6row2.insight_type := by
  refine ⟨?_, ⟨by decide, by decide⟩, by decide, by decide, by decide, rfl, rfl⟩
  intro rows r
  simp [studyGuides, List.mem_filter]

/-! ## The `upload_embeddings` table -/

/-- Column names of `upload_embeddings` as declared in the schema.  There is no
`model_version` column. -/
def uploadEmbeddingsColumns : List String :=
  ["id", "upload_id", "embedding", "created_at"]

/-- Row of `upload_embeddings`: `id` (PK), `upload_id`
(`UNIQUE(upload_id)`), `embedding` (JSONB array, modelled as rationals),
`created_at`. -/
structure UploadEmbeddingRow where
  id : ℕ
  upload_id : ℕ
  embedding : List ℚ
  created_at : ℕ
  deriving DecidableEq

/-- Constraints the `upload_embeddings` DDL places on a table state: unique
primary key and `UNIQUE(upload_id)`. -/
def uploadEmbeddingsTableValid (rows : List UploadEmbeddingRow) : Prop :=
  rows.Pairwise (fun a b => a.id ≠ b.id ∧ a.upload_id ≠ b.upload_id)

instance (rows : List UploadEmbeddingRow) :
    Decidable (uploadEmbeddingsTableValid rows) := by
  unfold uploadEmbeddingsTableValid
  infer_instance

/-- C8 counterexample: the `upload_embeddings` record carries no
`model_version` field — the schema's columns are exactly
`id, upload_id, embedding, created_at` — so the cached vector cannot be keyed
on `model_version` changes as the claim states. -/
theorem upload_embeddings_no_model_version_col :
    "model_version" ∉ uploadEmbeddingsColumns := by decide

/-- C8 amended: every upload has at most one cached embedding record, enforced
by `UNIQUE(upload_id)`: in any table state satisfying the schema's
constraints, at most one row matches a given `upload_id`. -/
theorem upload_embeddings_at_most_one (rows : List UploadEmbeddingRow)
    (hvalid : uploadEmbeddingsTableValid rows) (u : ℕ) :
    (rows.filter fun r => r.upload_id == u).length ≤ 1 := by
  have key : ∀ l : List UploadEmbeddingRow,
      l.Pairwise (fun a b => a.id ≠ b.id ∧ a.upload_id ≠ b.upload_id) →
      (l.filter fun r => r.upload_id == u).length ≤ 1 := by
    intro l
    induction l with
    | nil => intro _; simp
    | cons x xs ih =>
        intro h
        rw [List.pairwise_cons] at h
        by_cases hx : x.upload_id = u
        · rw [List.filter_cons_of_pos (by simp [hx])]
          have hnil : xs.filter (fun r => r.upload_id == u) = [] := by
            rw [List.filter_eq_nil]
            intro b hb
            simp only [beq_iff_eq]
            rw [← hx]
            exact fun hbu => (h.1 b hb).2 hbu.symm
          rw [hnil]
          simp
        · rw [List.filter_cons_of_neg (by simp [hx])]
          exact ih h.2
  exact key rows hvalid

/-- Witness for `upload_embeddings_at_most_one` on a concrete two-row table. -/
theorem upload_embeddings_at_most_one_witness :
    (([⟨0, 10, [1/2, 1/4], 0⟩, ⟨1, 11, [1/3], 1⟩] :
        List UploadEmbeddingRow).filter fun r => r.upload_id == 10).length ≤ 1 :=
  upload_embeddings_at_most_one
    [⟨0, 10, [1/2, 1/4], 0⟩, ⟨1, 11, [1/3], 1⟩] (by decide) 10

/-! ## Unit Clusterer: choice of the unit count (spec §4.2)

The pipeline implementation file (`ai_service.py`) is not part of the
repository snapshot — only its launchers and documentation are — so the
clusterer is modelled from the specification. -/

/-- Integer square root `⌊√x⌋`, written through `Nat.findGreatest` so that it
reduces inside the kernel; `intSqrt_eq_sqrt` identifies it with `Nat.sqrt`. -/
def intSqrt (x : ℕ) : ℕ :=
  Nat.findGreatest (fun m => m * m ≤ x) x

lemma intSqrt_le_sq (x : ℕ) : intSqrt x * intSqrt x ≤ x := by
  have h := Nat.findGreatest_spec (P := fun m => m * m ≤ x) (n := x)
    (Nat.zero_le x) (by simp)
  exact h

lemma intSqrt_eq_sqrt (x : ℕ) : intSqrt x = Nat.sqrt x := by
  apply le_antisymm
  · exact Nat.le_sqrt.mpr (intSqrt_le_sq x)
  · exact Nat.le_findGreatest (Nat.sqrt_le_self x) (Nat.sqrt_le x)

lemma lt_succ_intSqrt_sq (x : ℕ) : x < (intSqrt x + 1) * (intSqrt x + 1) := by
  by_cases hb : intSqrt x + 1 ≤ x
  · have hgt := Nat.findGreatest_is_greatest
      (P := fun m => m * m ≤ x) (Nat.lt_succ_self _) hb
    exact Nat.not_le.mp hgt
  · calc x < x + 1 := Nat.lt_succ_self x
      _ ≤ intSqrt x + 1 := by omega
      _ ≤ (intSqrt x + 1) * (intSqrt x + 1) := by nlinarith

/-- Modelled from the spec: `k = clamp(round(sqrt(n/2)), 1, k_max)` (§4.2,
step 1) for the missing `ai_service.py` clusterer.  Since
`√(n/2) = √(2n)/2` and `2n` is never the square of an odd integer,
`round(√(n/2))` is unambiguous and equals `(intSqrt (2*n) + 1) / 2`;
`clusterer_unit_count` below proves the characterizing inequalities. -/
def chooseK (n kMax : ℕ) : ℕ :=
  min (max ((intSqrt (2 * n) + 1) / 2) 1) kMax

/-- Modelled from the spec: "if `k > n`, clamp `k = n`" (§4.2 Errors) for the
missing `ai_service.py` clusterer. -/
def effectiveK (n kMax : ℕ) : ℕ :=
  min (chooseK n kMax) n

/-- Modelled from the spec: the first clustering run over `n` uploads returns
no units when `n = 0` and `effectiveK n kMax` units otherwise (§4.2) — for the
missing `ai_service.py` clusterer. -/
def firstRunUnitCount (n kMax : ℕ) : ℕ :=
  if n = 0 then 0 else effectiveK n kMax

/-- C7: on the first clustering run with `n` embedded uploads the clusterer
returns no units for `n = 0`, and otherwise `k = clamp(round(sqrt(n/2)), 1,
k_max)` clamped to `n`, so `1 ≤ k ≤ n` (and `k ≤ k_max`); the quantity
`m = (Nat.sqrt (2n) + 1) / 2` used by `chooseK` is exactly
`round(sqrt(n/2))`, characterized by `(m - 1/2)² ≤ n/2 < (m + 1/2)²`,
stated integrally as `(2m-1)² ≤ 2n < (2m+1)²`. -/
theorem clusterer_unit_count (n kMax : ℕ) (hn : 0 < n) (hk : 1 ≤ kMax) :
    firstRunUnitCount 0 kMax = 0 ∧
    1 ≤ firstRunUnitCount n kMax ∧
    firstRunUnitCount n kMax ≤ n ∧
    firstRunUnitCount n kMax ≤ kMax ∧
    (2 * ((intSqrt (2 * n) + 1) / 2) - 1) ^ 2 ≤ 2 * n ∧
    2 * n < (2 * ((intSqrt (2 * n) + 1) / 2) + 1) ^ 2 := by
  have hs1 : intSqrt (2 * n) * intSqrt (2 * n) ≤ 2 * n := intSqrt_le_sq (2 * n)
  have hs2 : 2 * n < (intSqrt (2 * n) + 1) * (intSqrt (2 * n) + 1) :=
    lt_succ_intSqrt_sq (2 * n)
  have hsge : 1 ≤ intSqrt (2 * n) := by
    rw [intSqrt_eq_sqrt]
    exact Nat.sqrt_pos.mpr (by omega)
  have hround : (2 * ((intSqrt (2 * n) + 1) / 2) - 1) ^ 2 ≤ 2 * n ∧
      2 * n < (2 * ((intSqrt (2 * n) + 1) / 2) + 1) ^ 2 := by
    rcases Nat.even_or_odd (intSqrt (2 * n)) with ⟨t, ht⟩ | ⟨t, ht⟩
    · have ht1 : 1 ≤ t := by omega
      have hm : (intSqrt (2 * n) + 1) / 2 = t := by omega
      rw [hm]
      constructor
      · calc (2 * t - 1) ^ 2 ≤ (2 * t) ^ 2 := Nat.pow_le_pow_left (by omega) 2
          _ = intSqrt (2 * n) * intSqrt (2 * n) := by rw [ht]; ring
          _ ≤ 2 * n := hs1
      · calc 2 * n < (intSqrt (2 * n) + 1) * (intSqrt (2 * n) + 1) := hs2
          _ = (2 * t + 1) ^ 2 := by rw [ht]; ring
    · have hm : (intSqrt (2 * n) + 1) / 2 = t + 1 := by omega
      rw [hm]
      constructor
      · have h21 : 2 * (t + 1) - 1 = 2 * t + 1 := by omega
        calc (2 * (t + 1) - 1) ^ 2 = intSqrt (2 * n) * intSqrt (2 * n) := by
              rw [h21, ht]; ring
          _ ≤ 2 * n := hs1
      · calc 2 * n < (intSqrt (2 * n) + 1) * (intSqrt (2 * n) + 1) := hs2
          _ ≤ (2 * (t + 1) + 1) ^ 2 := by
              rw [ht]
              calc (2 * t + 1 + 1) * (2 * t + 1 + 1) = (2 * t + 2) ^ 2 := by ring
                _ ≤ (2 * (t + 1) + 1) ^ 2 := Nat.pow_le_pow_left (by omega) 2
  refine ⟨rfl, ?_, ?_, ?_, hround.1, hround.2⟩
  · simp only [firstRunUnitCount, effectiveK, chooseK, if_neg hn.ne']
    omega
  · simp only [firstRunUnitCount, effectiveK, chooseK, if_neg hn.ne']
    omega
  · simp only [firstRunUnitCount, effectiveK, chooseK, if_neg hn.ne']
    omega

/-- Witness for `clusterer_unit_count` at `n = 5`, `k_max = 8`. -/
theorem clusterer_unit_count_witness :
    firstRunUnitCount 0 8 = 0 ∧
    1 ≤ firstRunUnitCount 5 8 ∧
    firstRunUnitCount 5 8 ≤ 5 ∧
    firstRunUnitCount 5 8 ≤ 8 ∧
    (2 * ((intSqrt (2 * 5) + 1) / 2) - 1) ^ 2 ≤ 2 * 5 ∧
    2 * 5 < (2 * ((intSqrt (2 * 5) + 1) / 2) + 1) ^ 2 :=
  clusterer_unit_count 5 8 (by decide) (by decide)

/-! ## Study-guide generation pipeline (spec §4.3, §4.4, §4.6)

The pipeline implementation file is absent from the snapshot, so the
Incremental State Tracker, Guide Synthesizer and Orchestrator persistence are
modelled from the specification.  Upload ids are naturals; one classroom's
slice of the Content Store is a set of upload ids plus the persisted guide. -/

/-- Error taxonomy relevant to a generation run (§7). -/
inductive PipelineError
  | providerError
  | emptyInput
  deriving DecidableEq

instance {ε α : Type} [DecidableEq ε] [DecidableEq α] :
    DecidableEq (Except ε α) := fun x y =>
  match x, y with
  | Except.ok a, Except.ok b =>
      if h : a = b then isTrue (by rw [h])
      else isFalse (fun hh => h (Except.ok.inj hh))
  | Except.error a, Except.error b =>
      if h : a = b then isTrue (by rw [h])
      else isFalse (fun hh => h (Except.error.inj hh))
  | Except.ok _, Except.error _ => isFalse (fun hh => Except.noConfusion hh)
  | Except.error _, Except.ok _ => isFalse (fun hh => Except.noConfusion hh)

/-- Metadata of a persisted `StudyGuide` (§3). -/
structure GuideMetadata where
  processedUploadIds : Finset ℕ
  unitCount : ℕ
  uploadCount : ℕ
  guideVersion : ℕ
  deriving DecidableEq

/-- Persisted study guide: markdown content plus metadata (§3). -/
structure StudyGuide where
  content : String
  metadata : GuideMetadata
  deriving DecidableEq

/-- One classroom's slice of the Content Store: its current upload ids, the
persisted guide and the persisted confusion summary, if any.  A
generate-study-guide run never touches the summary. -/
structure ClassroomStore where
  uploadIds : Finset ℕ
  guide : Option StudyGuide
  confusionSummary : Option String
  deriving DecidableEq

/-- Upload ids already folded into the persisted guide (∅ when no guide has
been generated yet). -/
def processedOf (st : ClassroomStore) : Finset ℕ :=
  match st.guide with
  | some g => g.metadata.processedUploadIds
  | none => ∅

/-- Modelled from the spec: the Incremental State Tracker's delta (§4.3) for
the missing `ai_service.py` — `all_current_upload_ids − processed_upload_ids`,
or every upload when `force` is true. -/
def computeDelta (st : ClassroomStore) (force : Bool) : Finset ℕ :=
  if force then st.uploadIds else st.uploadIds \ processedOf st

/-- Modelled from the spec: the Guide Synthesizer's per-unit loop (§4.4) for
the missing `ai_service.py` — one generation call per affected unit, with a
`ProviderError` on any call aborting the loop.  `gen i` is the provider's
section text for unit `i`. -/
def synthSections (gen : ℕ → Except PipelineError String) :
    ℕ → Except PipelineError (List String)
  | 0 => Except.ok []
  | k + 1 =>
      match synthSections gen k with
      | Except.error e => Except.error e
      | Except.ok ss =>
          match gen k with
          | Except.error e => Except.error e
          | Except.ok s => Except.ok (ss ++ [s])

/-- Modelled from the spec: the guide assembled at the end of a generating run
(§4.4) — sections concatenated, `processed_upload_ids ∪= delta` (reset to
exactly the current upload set when forced, §4.3/§8), `unit_count`,
`upload_count`, and `guide_version` incremented by one. -/
def newGuideOf (st : ClassroomStore) (force : Bool) (sections : List String)
    (kMax : ℕ) : StudyGuide :=
  { content := String.intercalate "\n\n" sections
    metadata :=
      { processedUploadIds :=
          if force then st.uploadIds else processedOf st ∪ computeDelta st force
        unitCount := effectiveK st.uploadIds.card kMax
        uploadCount := st.uploadIds.card
        guideVersion :=
          (match st.guide with
           | some g => g.metadata.guideVersion
           | none => 0) + 1 } }

/-- Modelled from the spec: one `generate-study-guide` run (§4.3 no-op
signal, §4.2 empty input, §4.4 synthesis, §4.6 persistence) for the missing
`ai_service.py`.  Returns the persisted store, the guide returned to the
caller, and the number of provider generation calls the run issued. -/
def generateRun (gen : ℕ → Except PipelineError String) (kMax : ℕ)
    (st : ClassroomStore) (force : Bool) :
    Except PipelineError (ClassroomStore × StudyGuide × ℕ) :=
  if force = false ∧ computeDelta st force = ∅ then
    match st.guide with
    | some g => Except.ok (st, g, 0)
    | none => Except.error PipelineError.emptyInput
  else if st.uploadIds = ∅ then
    Except.error PipelineError.emptyInput
  else
    match synthSections gen (effectiveK st.uploadIds.card kMax) with
    | Except.error e => Except.error e
    | Except.ok sections =>
        Except.ok
          ({ st with guide := some (newGuideOf st force sections kMax) },
            newGuideOf st force sections kMax,
            effectiveK st.uploadIds.card kMax)

/-- Modelled from the spec: the orchestrator persists transactionally — the
full updated guide on success, nothing on failure (§4.6). -/
def orchestrate (gen : ℕ → Except PipelineError String) (kMax : ℕ)
    (st : ClassroomStore) (force : Bool) : ClassroomStore :=
  match generateRun gen kMax st force with
  | Except.ok (st', _, _) => st'
  | Except.error _ => st

lemma generateRun_noop (gen : ℕ → Except PipelineError String) (kMax : ℕ)
    (st : ClassroomStore) (g : StudyGuide) (hg : st.guide = some g)
    (hd : computeDelta st false = ∅) :
    generateRun gen kMax st false = Except.ok (st, g, 0) := by
  unfold generateRun
  rw [if_pos ⟨rfl, hd⟩, hg]

lemma generateRun_ok_cases (gen : ℕ → Except PipelineError String) (kMax : ℕ)
    (st : ClassroomStore) (force : Bool) (st1 : ClassroomStore)
    (g1 : StudyGuide) (c1 : ℕ)
    (h : generateRun gen kMax st force = Except.ok (st1, g1, c1)) :
    (force = false ∧ computeDelta st force = ∅ ∧ st.guide = some g1 ∧
      st1 = st ∧ c1 = 0) ∨
    (∃ sections,
      synthSections gen (effectiveK st.uploadIds.card kMax) =
        Except.ok sections ∧
      st.uploadIds ≠ ∅ ∧
      ¬(force = false ∧ computeDelta st force = ∅) ∧
      g1 = newGuideOf st force sections kMax ∧
      st1 = { st with guide := some g1 } ∧
      c1 = effectiveK st.uploadIds.card kMax) := by
  unfold generateRun at h
  by_cases hno : force = false ∧ computeDelta st force = ∅
  · rw [if_pos hno] at h
    left
    cases hg : st.guide with
    | none => rw [hg] at h; simp at h
    | some g =>
        rw [hg] at h
        simp only [Except.ok.injEq, Prod.mk.injEq] at h
        obtain ⟨h1, h2, h3⟩ := h
        subst h1
        subst h2
        subst h3
        exact ⟨hno.1, hno.2, by simp [hg], rfl, rfl⟩
  · rw [if_neg hno] at h
    right
    by_cases hemp : st.uploadIds = ∅
    · rw [if_pos hemp] at h; simp at h
    · rw [if_neg hemp] at h
      cases hsyn : synthSections gen (effectiveK st.uploadIds.card kMax) with
      | error e => rw [hsyn] at h; simp at h
      | ok sections =>
          rw [hsyn] at h
          simp only [Except.ok.injEq, Prod.mk.injEq] at h
          obtain ⟨h1, h2, h3⟩ := h
          subst h1
          subst h2
          subst h3
          exact ⟨sections, rfl, hemp, hno, rfl, rfl, rfl⟩

lemma processed_after_generate (st : ClassroomStore) (force : Bool)
    (sections : List String) (kMax : ℕ) :
    st.uploadIds ⊆
      (newGuideOf st force sections kMax).metadata.processedUploadIds := by
  unfold newGuideOf
  dsimp only
  cases force with
  | true => simp
  | false =>
      rw [if_neg (by simp)]
      intro x hx
      unfold computeDelta
      rw [if_neg (by simp)]
      by_cases hp : x ∈ processedOf st
      · exact Finset.mem_union_left _ hp
      · exact Finset.mem_union_right _ (Finset.mem_sdiff.mpr ⟨hx, hp⟩)

lemma delta_subset (st : ClassroomStore) (force : Bool) :
    computeDelta st force ⊆ st.uploadIds := by
  unfold computeDelta
  split
  · exact Finset.Subset.refl _
  · exact Finset.sdiff_subset

lemma synthSections_ok_all (gen : ℕ → Except PipelineError String) (k : ℕ)
    (l : List String) (h : synthSections gen k = Except.ok l) :
    ∀ i, i < k → ∃ s, gen i = Except.ok s := by
  induction k generalizing l with
  | zero => intro i hi; omega
  | succ k ih =>
      intro i hi
      unfold synthSections at h
      cases hss : synthSections gen k with
      | error e => rw [hss] at h; simp at h
      | ok ss =>
          rw [hss] at h
          cases hgk : gen k with
          | error e => rw [hgk] at h; simp at h
          | ok s =>
              by_cases hik : i < k
              · exact ih ss hss i hik
              · have hi' : i = k := by omega
                exact ⟨s, hi' ▸ hgk⟩

lemma noop_after_ok (gen gen2 : ℕ → Except PipelineError String)
    (kMax : ℕ) (st st1 : ClassroomStore) (g1 : StudyGuide) (c1 : ℕ)
    (h : generateRun gen kMax st false = Except.ok (st1, g1, c1)) :
    generateRun gen2 kMax st1 false = Except.ok (st1, g1, 0) := by
  rcases generateRun_ok_cases gen kMax st false st1 g1 c1 h with
    ⟨_, hd, hg, rfl, _⟩ | ⟨sections, hsyn, hemp, hno, hg1, hst1, hc⟩
  · exact generateRun_noop gen2 kMax _ g1 hg hd
  · subst hst1
    apply generateRun_noop gen2 kMax _ g1 rfl
    unfold computeDelta
    rw [if_neg (by simp)]
    rw [Finset.sdiff_eq_empty_iff_subset]
    have hsub : st.uploadIds ⊆ g1.metadata.processedUploadIds := by
      rw [hg1]
      exact processed_after_generate st false sections kMax
    simpa [processedOf] using hsub

/-- C2: with no new uploads and `force = false`, a second
generate-study-guide invocation returns the last persisted guide unchanged —
identical content and `guide_version` — leaves the store unchanged, and issues
zero provider calls, whatever the provider oracle would answer (`gen2` is
arbitrary, so the Embedding Engine and Guide Synthesizer are not invoked). -/
theorem generate_idempotent (gen gen2 : ℕ → Except PipelineError String)
    (kMax : ℕ) (st st1 : ClassroomStore) (g1 : StudyGuide) (c1 : ℕ)
    (h : generateRun gen kMax st false = Except.ok (st1, g1, c1)) :
    generateRun gen2 kMax st1 false = Except.ok (st1, g1, 0) :=
  noop_after_ok gen gen2 kMax st st1 g1 c1 h

/-- C3: `processed_upload_ids` is monotone: any successful non-forced run only
grows the processed set, while a successful forced run resets it to exactly
the classroom's current upload id set; the persisted store's processed set is
the returned guide's. -/
theorem processed_monotonicity (gen : ℕ → Except PipelineError String)
    (kMax : ℕ) (st : ClassroomStore) (force : Bool) (st1 : ClassroomStore)
    (g1 : StudyGuide) (c1 : ℕ)
    (h : generateRun gen kMax st force = Except.ok (st1, g1, c1)) :
    processedOf st1 = g1.metadata.processedUploadIds ∧
    (force = false → processedOf st ⊆ g1.metadata.processedUploadIds) ∧
    (force = true → g1.metadata.processedUploadIds = st.uploadIds) := by
  rcases generateRun_ok_cases gen kMax st force st1 g1 c1 h with
    ⟨hf, hd, hg, rfl, _⟩ | ⟨sections, hsyn, hemp, hno, hg1, hst1, hc⟩
  · refine ⟨by simp [processedOf, hg], fun _ => ?_, fun ht => ?_⟩
    · simp [processedOf, hg]
    · rw [ht] at hf; cases hf
  · subst hst1
    subst hg1
    refine ⟨by simp [processedOf], fun hfalse => ?_, fun htrue => ?_⟩
    · unfold newGuideOf
      dsimp only
      rw [if_neg (by simp [hfalse])]
      exact Finset.subset_union_left
    · unfold newGuideOf
      dsimp only
      rw [if_pos (by simp [htrue])]

/-- C4: a `ProviderError` on any unit's generation call aborts the whole run
and the orchestrator persists nothing: the stored `StudyGuide` (and
`ConfusionSummary`) after the failed run are identical to before it. -/
theorem provider_failure_atomic (gen : ℕ → Except PipelineError String)
    (kMax : ℕ) (st : ClassroomStore) (force : Bool) :
    (∀ e, generateRun gen kMax st force = Except.error e →
        orchestrate gen kMax st force = st) ∧
    (computeDelta st force ≠ ∅ →
      (∃ i, i < effectiveK st.uploadIds.card kMax ∧
        ∃ e, gen i = Except.error e) →
      orchestrate gen kMax st force = st ∧
      ∃ e, generateRun gen kMax st force = Except.error e) := by
  constructor
  · intro e he
    unfold orchestrate
    rw [he]
  · intro hd hfail
    obtain ⟨i, hik, e, hie⟩ := hfail
    have hno : ¬(force = false ∧ computeDelta st force = ∅) := fun hc => hd hc.2
    have hup : st.uploadIds ≠ ∅ := by
      intro hemp
      exact hd (Finset.subset_empty.mp (hemp ▸ delta_subset st force))
    cases hsyn : synthSections gen (effectiveK st.uploadIds.card kMax) with
    | ok l =>
        exfalso
        obtain ⟨s, hs⟩ := synthSections_ok_all gen _ l hsyn i hik
        rw [hie] at hs
        cases hs
    | error e' =>
        have hrun : generateRun gen kMax st force = Except.error e' := by
          unfold generateRun
          rw [if_neg hno, if_neg hup, hsyn]
        exact ⟨by unfold orchestrate; rw [hrun], ⟨e', hrun⟩⟩

/-! ### Concrete runs witnessing C2, C3 and C4 -/

/-- Provider oracle answering a fixed section text. -/
def demoGen : ℕ → Except PipelineError String := fun _ => Except.ok "Section"

/-- Provider oracle failing every call, standing in for a second invocation
that must not reach the provider at all. -/
def demoGenFail : ℕ → Except PipelineError String :=
  fun _ => Except.error PipelineError.providerError

/-- Store before the first run: one upload, no guide, no summary. -/
def demoSt0 : ClassroomStore := ⟨{1}, none, none⟩

/-- Guide produced by the first run over `demoSt0`. -/
def demoGuide : StudyGuide := ⟨"Section", ⟨{1}, 1, 1, 1⟩⟩

/-- Store persisted by the first run over `demoSt0`. -/
def demoSt1 : ClassroomStore := ⟨{1}, some demoGuide, none⟩

/-- Store with one new upload added after the first run. -/
def demoSt2 : ClassroomStore := ⟨{1, 2}, some demoGuide, none⟩

/-- Guide produced by a forced run over `demoSt2`. -/
def demoForcedGuide : StudyGuide := ⟨"Section", ⟨{1, 2}, 1, 2, 2⟩⟩

/-- Store with eight uploads and no guide, for the failing-run witness. -/
def demoStBig : ClassroomStore := ⟨{1, 2, 3, 4, 5, 6, 7, 8}, none, none⟩

/-- Provider oracle that answers unit 0 and fails on unit 1: a run over
`demoStBig` clusters into two units, so the second unit's call fails after the
first succeeded. -/
def demoGenHalting : ℕ → Except PipelineError String := fun i =>
  if i = 0 then Except.ok "Unit A" else Except.error PipelineError.providerError

/-- Witness for `generate_idempotent`: after the run `demoSt0 → demoSt1`, a
second non-forced invocation returns the persisted guide with zero provider
calls even under an always-failing oracle. -/
theorem generate_idempotent_witness :
    generateRun demoGenFail 5 demoSt1 false = Except.ok (demoSt1, demoGuide, 0) :=
  generate_idempotent demoGen demoGenFail 5 demoSt0 demoSt1 demoGuide 1 (by decide)

/-- Witness for `processed_monotonicity`: the non-forced run `demoSt0 →
demoSt1` grows the processed set, and a forced run over `demoSt2` resets it to
exactly the current upload set. -/
theorem processed_monotonicity_witness :
    processedOf demoSt0 ⊆ demoGuide.metadata.processedUploadIds ∧
    demoForcedGuide.metadata.processedUploadIds = demoSt2.uploadIds :=
  ⟨(processed_monotonicity demoGen 5 demoSt0 false demoSt1 demoGuide 1
      (by decide)).2.1 rfl,
   (processed_monotonicity demoGen 5 demoSt2 true
      ⟨{1, 2}, some demoForcedGuide, none⟩ demoForcedGuide 1 (by decide)).2.2 rfl⟩

/-- Witness for `provider_failure_atomic`: over `demoStBig` the clusterer
yields two units, `demoGenHalting` succeeds on unit 0 and fails on unit 1, and
the persisted store is untouched. -/
theorem provider_failure_atomic_witness :
    orchestrate demoGenHalting 5 demoStBig false = demoStBig ∧
    ∃ e, generateRun demoGenHalting 5 demoStBig false = Except.error e :=
  (provider_failure_atomic demoGenHalting 5 demoStBig false).2 (by decide)
    ⟨1, by decide, PipelineError.providerError, by decide⟩

/-! ## Confusion Aggregator: leak-detection guard (spec §4.5)

Also modelled from the specification, the aggregator being part of the absent
pipeline implementation.  Summaries and messages are character lists. -/

/-- Proposition that `w` occurs contiguously (verbatim) inside `s`. -/
def IsSubstringOf (w s : List Char) : Prop :=
  ∃ p q, s = p ++ w ++ q

/-- All windows of length `n` of `s`; empty when `n > s.length`. -/
def windows (s : List Char) (n : ℕ) : List (List Char) :=
  (List.range (s.length + 1 - n)).map fun i => (s.drop i).take n

/-- Modelled from the spec: the leak-detection guard (§4.5) of the missing
`ai_service.py` confusion aggregator — scan the generated summary for any
contiguous substring of length ≥ `leak_min_len` that also appears verbatim in
any single source message (it suffices to scan the length-`minLen` windows). -/
def hasLeak (minLen : ℕ) (summary : List Char) (msgs : List (List Char)) : Bool :=
  (windows summary minLen).any fun w =>
    msgs.any fun m => decide (w ∈ windows m minLen)

/-- Failure mode of the aggregator when the guard trips twice (§4.5, §7). -/
inductive ConfusionError
  | privacyViolationDetected
  deriving DecidableEq

/-- Modelled from the spec: guard-and-retry of the missing `ai_service.py`
confusion aggregator (§4.5) — scan the first generated summary `s1`; if it
leaks, regenerate once with a stricter prompt (yielding `s2`), and if the
second attempt still leaks, fail with `PrivacyViolationDetected` rather than
persist. -/
def aggregateSummary (minLen : ℕ) (msgs : List (List Char))
    (s1 s2 : List Char) : Except ConfusionError (List Char) :=
  if hasLeak minLen s1 msgs = false then Except.ok s1
  else if hasLeak minLen s2 msgs = false then Except.ok s2
  else Except.error ConfusionError.privacyViolationDetected

lemma window_mem_iff (w s : List Char) (n : ℕ) (hw : w.length = n) :
    w ∈ windows s n ↔ IsSubstringOf w s := by
  constructor
  · intro hmem
    simp only [windows, List.mem_map, List.mem_range] at hmem
    obtain ⟨i, _, heq⟩ := hmem
    refine ⟨s.take i, (s.drop i).drop n, ?_⟩
    rw [← heq]
    rw [List.append_assoc, List.take_append_drop, List.take_append_drop]
  · rintro ⟨p, q, rfl⟩
    simp only [windows, List.mem_map, List.mem_range]
    refine ⟨p.length, ?_, ?_⟩
    · simp only [List.length_append]
      omega
    · rw [List.append_assoc, List.drop_left, ← hw, List.take_left]

lemma append_take_drop_middle (p w q : List Char) (n : ℕ) :
    p ++ w ++ q = p ++ w.take n ++ (w.drop n ++ q) := by
  rw [List.append_assoc, List.append_assoc, ← List.append_assoc (w.take n),
    List.take_append_drop]

lemma substring_take (w s : List Char) (n : ℕ) (h : IsSubstringOf w s) :
    IsSubstringOf (w.take n) s := by
  obtain ⟨p, q, rfl⟩ := h
  exact ⟨p, w.drop n ++ q, append_take_drop_middle p w q n⟩

lemma no_leak_sound (minLen : ℕ) (s : List Char) (msgs : List (List Char))
    (h : hasLeak minLen s msgs = false) :
    ∀ w, minLen ≤ w.length → IsSubstringOf w s →
      ∀ m ∈ msgs, ¬ IsSubstringOf w m := by
  intro w hlen hws m hm hwm
  have hw0len : (w.take minLen).length = minLen := by
    rw [List.length_take]
    omega
  have hw0s : IsSubstringOf (w.take minLen) s := substring_take w s minLen hws
  have hw0m : IsSubstringOf (w.take minLen) m := substring_take w m minLen hwm
  unfold hasLeak at h
  rw [List.any_eq_false] at h
  have hmem_s : w.take minLen ∈ windows s minLen :=
    (window_mem_iff _ s minLen hw0len).mpr hw0s
  have hmem_m : w.take minLen ∈ windows m minLen :=
    (window_mem_iff _ m minLen hw0len).mpr hw0m
  apply h (w.take minLen) hmem_s
  rw [List.any_eq_true]
  exact ⟨m, hm, by simp [hmem_m]⟩

/-- C1: a summary persisted by the aggregator contains no contiguous substring
of length ≥ `leak_min_len` occurring verbatim in any single source message of
the window; and when the first summary leaks and the regenerated one still
leaks, the request fails with `PrivacyViolationDetected` instead of
persisting. -/
theorem confusion_summary_no_leak (minLen : ℕ) (msgs : List (List Char))
    (s1 s2 : List Char) :
    (∀ s, aggregateSummary minLen msgs s1 s2 = Except.ok s →
      ∀ w, minLen ≤ w.length → IsSubstringOf w s →
        ∀ m ∈ msgs, ¬ IsSubstringOf w m) ∧
    (hasLeak minLen s1 msgs = true → hasLeak minLen s2 msgs = true →
      aggregateSummary minLen msgs s1 s2 =
        Except.error ConfusionError.privacyViolationDetected) := by
  constructor
  · intro s hok
    unfold aggregateSummary at hok
    by_cases h1 : hasLeak minLen s1 msgs = false
    · rw [if_pos h1] at hok
      obtain rfl : s1 = s := Except.ok.inj hok
      exact no_leak_sound minLen s1 msgs h1
    · rw [if_neg h1] at hok
      by_cases h2 : hasLeak minLen s2 msgs = false
      · rw [if_pos h2] at hok
        obtain rfl : s2 = s := Except.ok.inj hok
        exact no_leak_sound minLen s2 msgs h2
      · rw [if_neg h2] at hok
        cases hok
  · intro h1 h2
    unfold aggregateSummary
    rw [if_neg (by rw [h1]; simp), if_neg (by rw [h2]; simp)]

/-- Witness for `confusion_summary_no_leak`: with window messages
`["hello world"]` and `leak_min_len = 3`, the leaking draft "I see hello
there" is rejected, the clean regeneration "students confused" is persisted
and shares no 3-character substring with the message; two leaking drafts fail
with `PrivacyViolationDetected`. -/
theorem confusion_summary_no_leak_witness :
    (¬ IsSubstringOf "stu".toList "hello world".toList) ∧
    aggregateSummary 3 ["hello world".toList] "I see hello there".toList
        "I see hello there".toList =
      Except.error ConfusionError.privacyViolationDetected :=
  ⟨(confusion_summary_no_leak 3 ["hello world".toList]
      "I see hello there".toList "students confused".toList).1
      "students confused".toList (by decide) "stu".toList (by decide)
      ⟨[], "dents confused".toList, by decide⟩ "hello world".toList
      (by simp),
   (confusion_summary_no_leak 3 ["hello world".toList]
      "I see hello there".toList "I see hello there".toList).2
      (by decide) (by decide)⟩

/-! ## Orchestrator concurrency: per-classroom lock (spec §4.6, §5)

Modelled from the spec: two concurrent generate-study-guide requests for the
same classroom are two threads interleaved over shared state consisting of the
classroom-scoped lock, the Content Store slice and a provider-call counter.
A thread acquires the free lock, performs its generation run while holding
it (reads the store, issues the run's provider calls, persists), and releases
the lock; a thread whose lock acquisition finds the lock held can only proceed
after the holder releases — it then re-runs, which by the no-op contract
(§4.3) returns the in-flight result without further provider calls. -/

/-- Phase of one request thread. -/
inductive Phase
  | idle
  | working
  | finished (res : Except PipelineError StudyGuide)
  deriving DecidableEq

/-- Shared state of the two-request system: the per-classroom lock, the
classroom's store slice, both threads and the total number of provider-side
generation calls issued so far. -/
structure SysState where
  lock : Bool
  store : ClassroomStore
  t1 : Phase
  t2 : Phase
  calls : ℕ
  deriving DecidableEq

/-- Effect of one generation run on the store: the new store, the response
handed to the caller, and the number of provider calls issued (errors persist
nothing and here issue no calls). -/
def runEffect (gen : ℕ → Except PipelineError String) (kMax : ℕ)
    (store : ClassroomStore) :
    ClassroomStore × Except PipelineError StudyGuide × ℕ :=
  match generateRun gen kMax store false with
  | Except.ok (st', g, c) => (st', Except.ok g, c)
  | Except.error e => (store, Except.error e, 0)

/-- Modelled from the spec: interleaving semantics of two concurrent
generate-study-guide requests under the per-classroom lock (§4.6, §5).  An
idle thread may acquire the lock only when it is free; a working thread holds
the lock, performs its whole serialized run and releases the lock when it
finishes. -/
inductive Step (gen : ℕ → Except PipelineError String) (kMax : ℕ) :
    SysState → SysState → Prop
  | acquire1 (s : SysState) (h : s.t1 = Phase.idle) (hl : s.lock = false) :
      Step gen kMax s { s with lock := true, t1 := Phase.working }
  | acquire2 (s : SysState) (h : s.t2 = Phase.idle) (hl : s.lock = false) :
      Step gen kMax s { s with lock := true, t2 := Phase.working }
  | run1 (s : SysState) (h : s.t1 = Phase.working) :
      Step gen kMax s
        ⟨false, (runEffect gen kMax s.store).1,
          Phase.finished (runEffect gen kMax s.store).2.1, s.t2,
          s.calls + (runEffect gen kMax s.store).2.2⟩
  | run2 (s : SysState) (h : s.t2 = Phase.working) :
      Step gen kMax s
        ⟨false, (runEffect gen kMax s.store).1, s.t1,
          Phase.finished (runEffect gen kMax s.store).2.1,
          s.calls + (runEffect gen kMax s.store).2.2⟩

/-- Reflexive-transitive closure of `Step`. -/
inductive Reaches (gen : ℕ → Except PipelineError String) (kMax : ℕ) :
    SysState → SysState → Prop
  | refl (s : SysState) : Reaches gen kMax s s
  | tail (s t u : SysState) (hr : Reaches gen kMax s t)
      (hs : Step gen kMax t u) : Reaches gen kMax s u

/-- Inductive invariant of the two-request system started on store `st`, when
a run from `st` generates `(st1, g1)` with `c1` provider calls. -/
def SysInv (st st1 : ClassroomStore) (g1 : StudyGuide) (c1 : ℕ)
    (s : SysState) : Prop :=
  s = ⟨false, st, Phase.idle, Phase.idle, 0⟩ ∨
  s = ⟨true, st, Phase.working, Phase.idle, 0⟩ ∨
  s = ⟨true, st, Phase.idle, Phase.working, 0⟩ ∨
  s = ⟨false, st1, Phase.finished (Except.ok g1), Phase.idle, c1⟩ ∨
  s = ⟨false, st1, Phase.idle, Phase.finished (Except.ok g1), c1⟩ ∨
  s = ⟨true, st1, Phase.finished (Except.ok g1), Phase.working, c1⟩ ∨
  s = ⟨true, st1, Phase.working, Phase.finished (Except.ok g1), c1⟩ ∨
  s = ⟨false, st1, Phase.finished (Except.ok g1),
        Phase.finished (Except.ok g1), c1⟩

lemma sysInv_step (gen : ℕ → Except PipelineError String) (kMax : ℕ)
    (st st1 : ClassroomStore) (g1 : StudyGuide) (c1 : ℕ)
    (hok : generateRun gen kMax st false = Except.ok (st1, g1, c1))
    (s u : SysState) (hinv : SysInv st st1 g1 c1 s)
    (hstep : Step gen kMax s u) : SysInv st st1 g1 c1 u := by
  have hrun1 : runEffect gen kMax st = (st1, Except.ok g1, c1) := by
    unfold runEffect
    rw [hok]
  have hok2 : generateRun gen kMax st1 false = Except.ok (st1, g1, 0) :=
    noop_after_ok gen gen kMax st st1 g1 c1 hok
  have hrun2 : runEffect gen kMax st1 = (st1, Except.ok g1, 0) := by
    unfold runEffect
    rw [hok2]
  cases hstep with
  | acquire1 h hl =>
      rcases hinv with rfl | rfl | rfl | rfl | rfl | rfl | rfl | rfl <;>
        simp_all [SysInv]
  | acquire2 h hl =>
      rcases hinv with rfl | rfl | rfl | rfl | rfl | rfl | rfl | rfl <;>
        simp_all [SysInv]
  | run1 h =>
      rcases hinv with rfl | rfl | rfl | rfl | rfl | rfl | rfl | rfl <;>
        simp_all [SysInv, hrun1, hrun2]
  | run2 h =>
      rcases hinv with rfl | rfl | rfl | rfl | rfl | rfl | rfl | rfl <;>
        simp_all [SysInv, hrun1, hrun2]

lemma sysInv_reaches (gen : ℕ → Except PipelineError String) (kMax : ℕ)
    (st st1 : ClassroomStore) (g1 : StudyGuide) (c1 : ℕ)
    (hok : generateRun gen kMax st false = Except.ok (st1, g1, c1))
    (s : SysState)
    (hr : Reaches gen kMax ⟨false, st, Phase.idle, Phase.idle, 0⟩ s) :
    SysInv st st1 g1 c1 s := by
  induction hr with
  | refl => left; rfl
  | tail t u hr hs ih =>
      exact sysInv_step gen kMax st st1 g1 c1 hok t u ih hs

/-- C5: per-classroom serialization — for two concurrent generate-study-guide
requests on one classroom, every reachable state has at most one request's
generation in flight, and every complete execution ends with both callers
holding the same generated guide (hence the same `guide_version`), the store
persisted once, and exactly the provider calls of the single generation run:
the second caller returns the in-flight result instead of generating again. -/
theorem concurrent_generation_serialized
    (gen : ℕ → Except PipelineError String) (kMax : ℕ)
    (st st1 : ClassroomStore) (g1 : StudyGuide) (c1 : ℕ)
    (hok : generateRun gen kMax st false = Except.ok (st1, g1, c1))
    (s : SysState)
    (hr : Reaches gen kMax ⟨false, st, Phase.idle, Phase.idle, 0⟩ s) :
    ¬(s.t1 = Phase.working ∧ s.t2 = Phase.working) ∧
    ((∀ u, ¬ Step gen kMax s u) →
      s.t1 = Phase.finished (Except.ok g1) ∧
      s.t2 = Phase.finished (Except.ok g1) ∧
      s.store = st1 ∧ s.calls = c1) := by
  have hinv := sysInv_reaches gen kMax st st1 g1 c1 hok s hr
  constructor
  · rcases hinv with rfl | rfl | rfl | rfl | rfl | rfl | rfl | rfl <;> simp
  · intro hstuck
    rcases hinv with rfl | rfl | rfl | rfl | rfl | rfl | rfl | rfl
    · exact absurd (Step.acquire1 _ rfl rfl) (hstuck _)
    · exact absurd (Step.run1 _ rfl) (hstuck _)
    · exact absurd (Step.run2 _ rfl) (hstuck _)
    · exact absurd (Step.acquire2 _ rfl rfl) (hstuck _)
    · exact absurd (Step.acquire1 _ rfl rfl) (hstuck _)
    · exact absurd (Step.run2 _ rfl) (hstuck _)
    · exact absurd (Step.run1 _ rfl) (hstuck _)
    · exact ⟨rfl, rfl, rfl, rfl⟩

/-- Final state of the concrete two-request execution over `demoSt0`. -/
def demoFinal : SysState :=
  ⟨false, demoSt1, Phase.finished (Except.ok demoGuide),
    Phase.finished (Except.ok demoGuide), 1⟩

/-- Witness for `concurrent_generation_serialized`: the concrete execution
acquire₁, run₁, acquire₂, run₂ over `demoSt0` ends with both callers holding
the same guide and a single provider generation. -/
theorem concurrent_generation_serialized_witness :
    ¬(demoFinal.t1 = Phase.working ∧ demoFinal.t2 = Phase.working) ∧
    demoFinal.t1 = Phase.finished (Except.ok demoGuide) ∧
    demoFinal.t2 = Phase.finished (Except.ok demoGuide) ∧
    demoFinal.store = demoSt1 ∧ demoFinal.calls = 1 := by
  have hok : generateRun demoGen 5 demoSt0 false =
      Except.ok (demoSt1, demoGuide, 1) := by decide
  have hre1 : runEffect demoGen 5 demoSt0 = (demoSt1, Except.ok demoGuide, 1) := by
    unfold runEffect
    rw [hok]
  have hok2 : generateRun demoGen 5 demoSt1 false =
      Except.ok (demoSt1, demoGuide, 0) := by decide
  have hre2 : runEffect demoGen 5 demoSt1 = (demoSt1, Except.ok demoGuide, 0) := by
    unfold runEffect
    rw [hok2]
  have h1 : Step demoGen 5 ⟨false, demoSt0, Phase.idle, Phase.idle, 0⟩
      ⟨true, demoSt0, Phase.working, Phase.idle, 0⟩ :=
    Step.acquire1 _ rfl rfl
  have h2 : Step demoGen 5 ⟨true, demoSt0, Phase.working, Phase.idle, 0⟩ _ :=
    Step.run1 (⟨true, demoSt0, Phase.working, Phase.idle, 0⟩ : SysState) rfl
  rw [hre1] at h2
  have h3 : Step demoGen 5
      ⟨false, demoSt1, Phase.finished (Except.ok demoGuide), Phase.idle, 1⟩
      ⟨true, demoSt1, Phase.finished (Except.ok demoGuide), Phase.working, 1⟩ :=
    Step.acquire2 _ rfl rfl
  have h4 : Step demoGen 5
      ⟨true, demoSt1, Phase.finished (Except.ok demoGuide), Phase.working, 1⟩ _ :=
    Step.run2
      (⟨true, demoSt1, Phase.finished (Except.ok demoGuide), Phase.working, 1⟩ :
        SysState) rfl
  rw [hre2] at h4
  have hreach : Reaches demoGen 5 ⟨false, demoSt0, Phase.idle, Phase.idle, 0⟩
      demoFinal :=
    Reaches.tail _ _ _
      (Reaches.tail _ _ _
        (Reaches.tail _ _ _
          (Reaches.tail _ _ _ (Reaches.refl _) h1) h2) h3) h4
  have hmain := concurrent_generation_serialized demoGen 5 demoSt0 demoSt1
    demoGuide 1 hok demoFinal hreach
  refine ⟨hmain.1, hmain.2 ?_⟩
  intro u hstep
  cases hstep <;> simp_all [demoFinal]

end ClassroomCogni
